import Mathlib

/-!
# go-oci8: package-level state and start-up (`globals.go`)

A shallow embedding of the package-level declarations of `globals.go`
(the error sentinels, the placeholder pattern `phre`, `defaultCharset`,
`OCI8Driver`) and of its `init` function.

* Go strings and byte slices are lists of bytes (`Bytes`).
* The foreign functions reached through cgo (`OCIEnvCreate`, `OCIErrorGet`,
  `OCINlsCharSetNameToId`) are fields of a `Native` record: what they return is
  not decided by this repository.  The constants of Oracle `oci.h` are fields
  of an `OCIHeader` record.
* Go strings are byte lists throughout, also the panic value of `init` and the
  messages of the error sentinels.
* `phre` is compiled and run by a byte-level model of the Go packages `unicode/utf8`
  and `regexp`: the UTF-8 decoder, a parser for a fragment of the pattern syntax, a
  leftmost-first matcher and the loop that collects all non-overlapping matches.
* Effects are explicit: `init` maps a `World` to a `World` and an optional
  panic value, and every call that leaves the Go code is appended to the
  world `trace`.
* The registry of `database/sql` is part of the world: `sql.Register` panics on a
  name that is already registered, and `init` then stops there.
-/

namespace OCI8

/-- A Go string or byte slice. -/
abbrev Bytes := List Nat

/-- The bytes (UTF-8) of a string literal of the source. -/
def lit (s : String) : Bytes :=
  s.toList.flatMap fun c => (String.utf8EncodeChar c).map UInt8.toNat

/-- Result of `fmt.Sprint` and of the verb `%d` on a `C.sword`: the decimal rendering. -/
def sprint (i : Int) : Bytes := lit (toString i)

/-! ## Constants of `oci.h` -/

/-- The constants of Oracle `oci.h` that `globals.go` names through cgo.  The header
is not part of the repository, so its values are a parameter. -/
structure OCIHeader where
  OCI_SUCCESS : Int
  OCI_SUCCESS_WITH_INFO : Int
  OCI_NEED_DATA : Int
  OCI_NO_DATA : Int
  OCI_ERROR : Int
  OCI_INVALID_HANDLE : Int
  OCI_STILL_EXECUTING : Int
  OCI_CONTINUE : Int
  OCI_DEFAULT : Nat
  OCI_HTYPE_ENV : Nat
deriving Repr

/-- The status codes of a header are pairwise different: the `switch` of `init` lists
seven of them as `case` labels (Go rejects duplicate labels) next to the test against
`OCI_SUCCESS`. -/
def OCIHeader.Distinct (k : OCIHeader) : Prop :=
  [k.OCI_SUCCESS, k.OCI_SUCCESS_WITH_INFO, k.OCI_NEED_DATA, k.OCI_NO_DATA, k.OCI_ERROR,
    k.OCI_INVALID_HANDLE, k.OCI_STILL_EXECUTING, k.OCI_CONTINUE].Nodup

instance (k : OCIHeader) : Decidable k.Distinct := by
  unfold OCIHeader.Distinct; infer_instance

/-- The values Oracle `oci.h` gives these constants. -/
def oracleHeader : OCIHeader where
  OCI_SUCCESS := 0
  OCI_SUCCESS_WITH_INFO := 1
  OCI_NEED_DATA := 99
  OCI_NO_DATA := 100
  OCI_ERROR := -1
  OCI_INVALID_HANDLE := -2
  OCI_STILL_EXECUTING := -3123
  OCI_CONTINUE := -24200
  OCI_DEFAULT := 0
  OCI_HTYPE_ENV := 1

/-! ## The error sentinels -/

/-- A Go error value made by `errors.New`: a pointer, here the address `addr`, to a value
that holds the message. -/
structure GoError where
  addr : Nat
  s : Bytes
deriving DecidableEq, Repr

/-- Go `errors.New`, with `next` the first unused address of the Go heap: a pointer to a
fresh value with the text, and the next unused address. -/
def errorsNew (text : Bytes) (next : Nat) : GoError × Nat :=
  ({ addr := next, s := text }, next + 1)

/-- The method `Error` of an error made by `errors.New`. -/
def GoError.Error (e : GoError) : Bytes := e.s

/-- Go `==` on two errors made by `errors.New`: they are equal when they are the same
pointer. -/
def GoError.same (a b : GoError) : Bool := a.addr == b.addr

/-- The two sentinels of the `var` block, initialised in the order of their declaration,
with `next` the first unused address of the Go heap. -/
def errorVars (next : Nat) : GoError × GoError :=
  let a := errorsNew (lit "OCI_SUCCESS_WITH_INFO") next
  let b := errorsNew (lit "result has no rowid") a.2
  (a.1, b.1)

/-- ErrOCISuccessWithInfo is OCI_SUCCESS_WITH_INFO. -/
def ErrOCISuccessWithInfo (next : Nat) : GoError := (errorVars next).1

/-- ErrNoRowid is result has no rowid. -/
def ErrNoRowid (next : Nat) : GoError := (errorVars next).2

/-! ## The `log` package, as far as `OCI8Driver` uses it -/

/-- The sinks an `io.Writer` of this model can be. -/
inductive Writer where
  | discard
  | stdout
  | stderr
deriving DecidableEq, Repr

/-- Go `log.Logger`: a sink, a line prefix and the header flags. -/
structure GoLogger where
  out : Writer
  pfx : Bytes
  flag : Nat
deriving DecidableEq, Repr

/-- Go `log.New`. -/
def logNew (out : Writer) (pfx : Bytes) (flag : Nat) : GoLogger :=
  { out := out, pfx := pfx, flag := flag }

/-- OCI8DriverStruct is Oracle driver struct. -/
structure OCI8DriverStruct where
  Logger : GoLogger
deriving DecidableEq, Repr

/-- OCI8Driver is the sql driver. -/
def OCI8Driver : OCI8DriverStruct :=
  { Logger := logNew Writer.discard (lit "") 0 }

/-! ## Worlds and effects -/

/-- The calls and writes that leave the Go code, with their arguments and results. -/
inductive Event where
  /-- The call `sql.Register(name, driver)` with the driver `driver`. -/
  | sqlRegister (name : Bytes) (driver : OCI8DriverStruct)
  /-- The call `sql.Register(name, nil)`. -/
  | sqlRegisterNil (name : Bytes)
  /-- The call `OCIEnvCreate(envpp, mode, ...)`, its status and the handle it stored. -/
  | envCreate (mode : Nat) (status : Int) (env : Nat)
  /-- Bytes written to standard output. -/
  | stdout (text : Bytes)
  /-- Bytes written to standard error. -/
  | stderr (text : Bytes)
  /-- The call `malloc(size)` and the pointer it returned. -/
  | malloc (size : Nat) (ptr : Nat)
  /-- A read of `len` bytes of C memory starting at `ptr`. -/
  | cRead (ptr : Nat) (len : Nat)
  /-- The call `OCIErrorGet(hndl, recordno, nil, errcodep, bufp, bufsiz, htype)`. -/
  | errorGet (hndl recordno bufp bufsiz htype : Nat) (status : Int)
  /-- The call `OCINlsCharSetNameToId(env, name)` and the identifier it returned. -/
  | charSetNameToId (env : Nat) (namep : Nat) (name : Bytes) (id : Nat)
  /-- The call `free(ptr)`. -/
  | free (ptr : Nat)
  /-- The call `OCIHandleFree(hndl, htype)`. -/
  | handleFree (hndl htype : Nat)
deriving DecidableEq, Repr

/-- A block of C memory obtained from `malloc`. -/
structure Block where
  bytes : Bytes
  freed : Bool
deriving DecidableEq, Repr

/-- A driver in the registry of `database/sql`: the driver of this package, or a driver
that another package registered. -/
inductive Registered where
  | oci8 (driver : OCI8DriverStruct)
  | other
deriving DecidableEq, Repr

/-- The state `init` runs in: the package variable `defaultCharset`, the registry
`drivers` of `database/sql` (names and drivers, in the order of registration), the C heap
(the pointer `p + 1` is the start of block `p`; `0` is the nil pointer) and the effects
so far, oldest first. -/
structure World where
  defaultCharset : Nat
  drivers : List (Bytes × Registered)
  heap : List Block
  trace : List Event
deriving DecidableEq, Repr

/-- Whether a driver is registered under `name`. -/
def World.registered (w : World) (name : Bytes) : Bool :=
  (w.drivers.lookup name).isSome

/-- The world after the package-level variables are initialised and before `init` runs,
in a program where no other package has registered a driver: `defaultCharset = C.ub2(0)`. -/
def World.initial : World :=
  { defaultCharset := 0, drivers := [], heap := [], trace := [] }

/-- The world before `init` runs in a program where another package has already
registered a driver under the name `oci8`. -/
def World.taken : World :=
  { World.initial with drivers := [(lit "oci8", Registered.other)] }

/-- Append an effect to the trace. -/
def World.emit (w : World) (e : Event) : World :=
  { w with trace := w.trace ++ [e] }

/-- The method `Write` of a sink: `ioutil.Discard` accepts the bytes and writes nothing. -/
def Writer.write (out : Writer) (p : Bytes) (w : World) : World :=
  match out with
  | Writer.discard => w
  | Writer.stdout => w.emit (Event.stdout p)
  | Writer.stderr => w.emit (Event.stderr p)

/-- The method `Output` of Go `log.Logger`, through which every logging method writes: one
write to the sink of the header (the prefix, and for non-zero flags the text `stamp` made
from the clock and the caller), the message, and a newline if the message lacks one. -/
def GoLogger.Output (l : GoLogger) (stamp s : Bytes) (w : World) : World :=
  l.out.write
    (l.pfx ++ (if l.flag = 0 then [] else stamp) ++ s ++
      (if s.getLast? = some 10 then [] else [10])) w

/-- The native layer: the foreign functions `init` calls and the contents of fresh memory. -/
structure Native where
  /-- `OCIEnvCreate` called with `mode`: the status and the handle stored through `envpp`
  (`0` when the environment pointer stays nil). -/
  OCIEnvCreate : (mode : Nat) → Int × Nat
  /-- `OCIErrorGet` called with `hndl`, `recordno`, the value `*errcodep` holds, `bufsiz`,
  `htype`: the status, the value left in `*errcodep`, and the text for the buffer. -/
  OCIErrorGet : (hndl recordno : Nat) → (errcode : Int) → (bufsiz htype : Nat) →
    Int × Int × Bytes
  /-- `OCINlsCharSetNameToId` called with the environment handle and the name. -/
  OCINlsCharSetNameToId : (env : Nat) → (name : Bytes) → Nat
  /-- The byte `malloc` leaves at an offset of the block with this pointer. -/
  junk : (ptr off : Nat) → Nat

/-! ## C memory -/

/-- The block a pointer is the start of. -/
def blockAt (heap : List Block) (ptr : Nat) : Option Block :=
  if ptr = 0 then none else heap.get? (ptr - 1)

/-- The bytes of the block at `ptr` (nothing for a pointer that is the start of no block). -/
def bytesAt (heap : List Block) (ptr : Nat) : Bytes :=
  match blockAt heap ptr with
  | some b => b.bytes
  | none => []

/-- The C string at `ptr`: what a C function reading a `text *` sees, the bytes before
the first NUL. -/
def cstrAt (heap : List Block) (ptr : Nat) : Bytes :=
  (bytesAt heap ptr).takeWhile (· ≠ 0)

/-- Replace the bytes of the block at `ptr`. -/
def setBytes (heap : List Block) (ptr : Nat) (bs : Bytes) : List Block :=
  if ptr = 0 then heap else heap.modify (fun b => { b with bytes := bs }) (ptr - 1)

/-- Overwrite the start of a buffer with `src`, keeping the buffer length. -/
def overwrite (buf src : Bytes) : Bytes :=
  src.take buf.length ++ buf.drop src.length

/-- C `malloc(size)`: a fresh block at the next pointer, holding whatever was there. -/
def malloc (n : Native) (size : Nat) (w : World) : Nat × World :=
  let ptr := w.heap.length + 1
  let blk : Block := { bytes := (List.range size).map (n.junk ptr), freed := false }
  (ptr, { w with heap := w.heap ++ [blk], trace := w.trace ++ [Event.malloc size ptr] })

/-- C `free(ptr)`. -/
def free (ptr : Nat) (w : World) : World :=
  { w with
    heap := if ptr = 0 then w.heap else w.heap.modify (fun b => { b with freed := true }) (ptr - 1)
    trace := w.trace ++ [Event.free ptr] }

/-- Modelled from the spec: the helper `cString` of the repository is not among the
sources; `init` frees its result with `C.free`, so it is a C-heap copy of the Go string,
NUL-terminated: `len(s) + 1` bytes from `malloc`. -/
def cString (n : Native) (s : Bytes) (w : World) : Nat × World :=
  let r := malloc n (s.length + 1) w
  (r.1, { r.2 with heap := setBytes r.2.heap r.1 (s ++ [0]) })

/-- Modelled from the spec: the helper `cStringN` of the repository is not among the
sources; the spec has "bounded buffer, e.g. 1024 bytes": a block of exactly `size` bytes from
`malloc` that starts with the NUL-terminated copy of `s` (cut to fit) and is otherwise as
`malloc` left it. -/
def cStringN (n : Native) (s : Bytes) (size : Nat) (w : World) : Nat × World :=
  let r := malloc n size w
  (r.1, { r.2 with
    heap := setBytes r.2.heap r.1 (overwrite (bytesAt r.2.heap r.1) (s.take (size - 1) ++ [0])) })

/-- Modelled from the spec: the helper `cGoStringN` of the repository is not among the
sources; it is the Go string made of the `size` bytes of C memory that start at `s`.  The
read is recorded; the bytes come from the block at `s`. -/
def cGoStringN (s : Nat) (size : Nat) (w : World) : Bytes × World :=
  ((bytesAt w.heap s).take size, w.emit (Event.cRead s size))

/-- A recorded read stays inside a live block of the heap. -/
def readInBounds (heap : List Block) (ptr len : Nat) : Prop :=
  ∃ b, blockAt heap ptr = some b ∧ b.freed = false ∧ len ≤ b.bytes.length

/-! ## `fmt` -/

/-- Go `fmt.Printf` and `fmt.Println` once the text is formatted: a write to standard
output. -/
def printOut (text : Bytes) (w : World) : World :=
  w.emit (Event.stdout text)

/-- What `fmt` prints for a `[]byte` operand: the decimal values in brackets. -/
def sprintBytes (b : Bytes) : Bytes :=
  lit "[" ++ (((b.map fun x => lit (toString x)).intersperse (lit " "))).flatten ++ lit "]"

/-- Go `sql.Register(name, driver)`, with `none` for a nil driver: it panics when the
driver is nil and when a driver is already registered under `name`, and otherwise adds the
driver to the registry.  Returns the world it leaves and the value it panics with, if it
panics. -/
def sqlRegister (name : Bytes) (driver : Option OCI8DriverStruct) (w : World) :
    World × Option Bytes :=
  match driver with
  | none => (w.emit (Event.sqlRegisterNil name), some (lit "sql: Register driver is nil"))
  | some d =>
    let w1 := w.emit (Event.sqlRegister name d)
    if w.registered name then
      (w1, some (lit "sql: Register called twice for driver " ++ name))
    else
      ({ w1 with drivers := w1.drivers ++ [(name, Registered.oci8 d)] }, none)

/-- The call `OCIErrorGet(hndl, recordno, nil, &result, bufp, bufsiz, htype)`: the native
layer leaves a value in `result` and puts at most `bufsiz` bytes of text at the start of the
buffer.  Returns the status and the new `result`. -/
def ociErrorGet (n : Native) (hndl recordno : Nat) (result : Int) (bufp bufsiz htype : Nat)
    (w : World) : (Int × Int) × World :=
  let r := n.OCIErrorGet hndl recordno result bufsiz htype
  ((r.1, r.2.1),
    { w with
      heap := setBytes w.heap bufp (overwrite (bytesAt w.heap bufp) (r.2.2.take bufsiz))
      trace := w.trace ++ [Event.errorGet hndl recordno bufp bufsiz htype r.1] })

/-! ## `init` -/

/-- The function `init` of `globals.go`, run in the world `w0`: the world it leaves and the
value it panics with, if it panics. -/
def init (k : OCIHeader) (n : Native) (w0 : World) : World × Option Bytes :=
  -- `OCI8Driver` is the address of a composite literal, so it is not nil
  let reg := sqlRegister (lit "oci8") (some OCI8Driver) w0
  match reg.2 with
  | some p => (reg.1, some p)
  | none =>
  let w1 := reg.1
  -- set defaultCharset to AL32UTF8
  -- `var envP *C.OCIEnv`, `envPP := &envP`, `var result C.sword`
  let created := n.OCIEnvCreate k.OCI_DEFAULT
  let result : Int := created.1
  let envP : Nat := created.2
  let w2 := w1.emit (Event.envCreate k.OCI_DEFAULT result envP)
  if result ≠ k.OCI_SUCCESS then
    let after : Int × World :=
      if result = k.OCI_SUCCESS_WITH_INFO then
        (result, printOut (lit "Error - OCI_SUCCESS_WITH_INFO\n") w2)
      else if result = k.OCI_NEED_DATA then
        (result, printOut (lit "Error - OCI_NEED_DATA\n") w2)
      else if result = k.OCI_NO_DATA then
        (result, printOut (lit "Error - OCI_NO_DATA\n") w2)
      else if result = k.OCI_ERROR then
        let w3 := printOut (lit "Error - OCI_ERROR\n") w2
        let t1 := cString n (lit "test") w3
        let g1 := cGoStringN t1.1 4 t1.2
        let w4 := printOut (sprintBytes g1.1 ++ lit "\n") g1.2
        let t2 := cString n (lit "test") w4
        let g2 := cGoStringN t2.1 4 t2.2
        let w5 := printOut (g2.1 ++ lit "\n") g2.2
        let eb := cStringN n (lit "") 1024 w5
        let errbuf := eb.1
        let eg := ociErrorGet n envP 1 result errbuf 1024 k.OCI_HTYPE_ENV eb.2
        let w6 := printOut ((sprint eg.1.1) ++ lit "\n") eg.2
        let m := cGoStringN errbuf 512 w6
        let msg := m.1
        (eg.1.2, printOut (lit "ERROR MESSAGE:" ++ lit " " ++ msg ++ lit "\n") m.2)
      else if result = k.OCI_INVALID_HANDLE then
        (result, printOut (lit "Error - OCI_INVALID_HANDLE\n") w2)
      else if result = k.OCI_STILL_EXECUTING then
        (result, printOut (lit "Error - OCI_STILL_EXECUTING\n") w2)
      else if result = k.OCI_CONTINUE then
        (result, printOut (lit "Error - OCI_CONTINUE\n") w2)
      else
        (result, printOut (lit "Error - " ++ (sprint result) ++ lit "\n") w2)
    (after.2, some (lit "OCIEnvCreate error: " ++ sprint after.1))
  else
    let ns := cString n (lit "AL32UTF8") w2
    let nlsLang := ns.1
    let name := cstrAt ns.2.heap nlsLang
    let id := n.OCINlsCharSetNameToId envP name
    let w3 := { ns.2.emit (Event.charSetNameToId envP nlsLang name id) with defaultCharset := id }
    let w4 := free nlsLang w3
    let w5 := w4.emit (Event.handleFree envP k.OCI_HTYPE_ENV)
    (w5, none)

/-- The status the native environment-create call of `init` returns. -/
def envStatus (k : OCIHeader) (n : Native) : Int := (n.OCIEnvCreate k.OCI_DEFAULT).1

/-- The environment handle the native environment-create call of `init` stores. -/
def envHandle (k : OCIHeader) (n : Native) : Nat := (n.OCIEnvCreate k.OCI_DEFAULT).2

/-- The effects `init` adds to the trace of the world it starts in. -/
def initEvents (k : OCIHeader) (n : Native) (w0 : World) : List Event :=
  (init k n w0).1.trace.drop w0.trace.length

/-- Whether an effect is a registration with the SQL front end. -/
def Event.isRegister : Event → Bool
  | Event.sqlRegister _ _ => true
  | Event.sqlRegisterNil _ => true
  | _ => false

/-- Whether an effect is a native error-text lookup. -/
def Event.isErrorGet : Event → Bool
  | Event.errorGet _ _ _ _ _ _ => true
  | _ => false

/-- Whether an effect is a character-set name-to-id lookup. -/
def Event.isCharSetLookup : Event → Bool
  | Event.charSetNameToId _ _ _ _ => true
  | _ => false

/-- Whether an effect creates an environment handle. -/
def Event.isEnvCreate : Event → Bool
  | Event.envCreate _ _ _ => true
  | _ => false

/-- Whether an effect frees a native handle. -/
def Event.isHandleFree : Event → Bool
  | Event.handleFree _ _ => true
  | _ => false

/-- Whether an effect allocates C memory. -/
def Event.isMalloc : Event → Bool
  | Event.malloc _ _ => true
  | _ => false

/-- Whether an effect frees C memory. -/
def Event.isFree : Event → Bool
  | Event.free _ => true
  | _ => false

/-! ### Sample native layers -/

/-- A native layer whose environment-create call returns `status` and stores `env`,
whose error-text lookup reports `ORA-01017`, and that knows the character set
`AL32UTF8` as 873. -/
def sampleNative (status : Int) (env : Nat) : Native where
  OCIEnvCreate := fun _ => (status, env)
  OCIErrorGet := fun _ _ _ _ _ => (0, 1017, lit "ORA-01017: invalid username/password\n" ++ [0])
  OCINlsCharSetNameToId := fun _ name => if name = lit "AL32UTF8" then 873 else 0
  junk := fun _ _ => 170

/-- The buffer `errbuf` of the `OCI_ERROR` branch after the native error-text lookup. -/
def errbufAfterLookup (k : OCIHeader) (n : Native) (w0 : World) : Bytes :=
  overwrite (overwrite ((List.range 1024).map (n.junk (w0.heap.length + 3))) [0])
    ((n.OCIErrorGet (envHandle k n) 1 k.OCI_ERROR 1024 k.OCI_HTYPE_ENV).2.2.take 1024)

/-- The line the `switch` of `init` prints for a status that is neither `OCI_SUCCESS` nor
`OCI_ERROR`. -/
def statusLine (k : OCIHeader) (c : Int) : Bytes :=
  if c = k.OCI_SUCCESS_WITH_INFO then lit "Error - OCI_SUCCESS_WITH_INFO\n"
  else if c = k.OCI_NEED_DATA then lit "Error - OCI_NEED_DATA\n"
  else if c = k.OCI_NO_DATA then lit "Error - OCI_NO_DATA\n"
  else if c = k.OCI_INVALID_HANDLE then lit "Error - OCI_INVALID_HANDLE\n"
  else if c = k.OCI_STILL_EXECUTING then lit "Error - OCI_STILL_EXECUTING\n"
  else if c = k.OCI_CONTINUE then lit "Error - OCI_CONTINUE\n"
  else lit "Error - " ++ (sprint c) ++ lit "\n"

/-- The live C blocks, as pairs of pointer and size, after a run of effects that starts
with the blocks `live`; `none` when an effect frees, reads or fills memory that is not a
live block, or reaches past the end of its block. -/
def replay : List (Nat × Nat) → List Event → Option (List (Nat × Nat))
  | live, [] => some live
  | live, Event.malloc size ptr :: es => replay (live ++ [(ptr, size)]) es
  | live, Event.free ptr :: es =>
    if live.any (fun b => b.1 == ptr) then replay (live.filter (fun b => b.1 != ptr)) es
    else none
  | live, Event.cRead ptr len :: es =>
    if live.any (fun b => b.1 == ptr && decide (len ≤ b.2)) then replay live es else none
  | live, Event.errorGet _ _ bufp bufsiz _ _ :: es =>
    if live.any (fun b => b.1 == bufp && decide (bufsiz ≤ b.2)) then replay live es else none
  | live, Event.charSetNameToId _ namep _ _ :: es =>
    if live.any (fun b => b.1 == namep) then replay live es else none
  | live, _ :: es => replay live es

/-! ## The `unicode/utf8` and `regexp` packages, as far as `phre` uses them -/

/-- The constant `utf8.RuneError`. -/
def RuneError : Nat := 0xFFFD

/-- The table `first` of `unicode/utf8`: for a first byte, `0xF0` (ASCII), `0xF1` (invalid)
or the size of the sequence in the low bits and the index of its accept range in the
high bits. -/
def first (b : Nat) : Nat :=
  if b < 0x80 then 0xF0
  else if b < 0xC2 then 0xF1
  else if b < 0xE0 then 0x02
  else if b = 0xE0 then 0x13
  else if b < 0xED then 0x03
  else if b = 0xED then 0x23
  else if b < 0xF0 then 0x03
  else if b = 0xF0 then 0x34
  else if b < 0xF4 then 0x04
  else if b = 0xF4 then 0x44
  else 0xF1

/-- The table `acceptRanges` of `unicode/utf8`: the bounds of the second byte. -/
def acceptRanges (i : Nat) : Nat × Nat :=
  match i with
  | 0 => (0x80, 0xBF)
  | 1 => (0xA0, 0xBF)
  | 2 => (0x80, 0x9F)
  | 3 => (0x90, 0xBF)
  | 4 => (0x80, 0x8F)
  | _ => (0, 0)

/-- Go `utf8.DecodeRuneInString`: the first rune of `s` and its width in bytes;
`(RuneError, 0)` for the empty string and `(RuneError, 1)` for an invalid encoding. -/
def DecodeRuneInString (s : Bytes) : Nat × Nat :=
  let n := s.length
  if n < 1 then (RuneError, 0) else
  let s0 := s.getD 0 0
  let x := first s0
  if x ≥ 0xF0 then
    (if x = 0xF0 then s0 else RuneError, 1)
  else
  let sz := x &&& 7
  let accept := acceptRanges (x >>> 4)
  if n < sz then (RuneError, 1) else
  let s1 := s.getD 1 0
  if s1 < accept.1 ∨ accept.2 < s1 then (RuneError, 1) else
  if sz ≤ 2 then ((s0 &&& 0x1F) <<< 6 ||| (s1 &&& 0x3F), 2) else
  let s2 := s.getD 2 0
  if s2 < 0x80 ∨ 0xBF < s2 then (RuneError, 1) else
  if sz ≤ 3 then ((s0 &&& 0x0F) <<< 12 ||| (s1 &&& 0x3F) <<< 6 ||| (s2 &&& 0x3F), 3) else
  let s3 := s.getD 3 0
  if s3 < 0x80 ∨ 0xBF < s3 then (RuneError, 1) else
  ((s0 &&& 0x07) <<< 18 ||| (s1 &&& 0x3F) <<< 12 ||| (s2 &&& 0x3F) <<< 6 ||| (s3 &&& 0x3F), 4)

/-- The method `step` of the string input of `regexp`: the rune at `pos` and its width;
`(-1, 0)` at the end of the text. -/
def step (s : Bytes) (pos : Nat) : Int × Nat :=
  if pos < s.length then
    let c := s.getD pos 0
    if c < 0x80 then (c, 1)
    else ((DecodeRuneInString (s.drop pos)).1, (DecodeRuneInString (s.drop pos)).2)
  else (-1, 0)

/-- Parsed regular expressions: the fragment of `regexp/syntax` of this model. -/
inductive Regexp where
  | emptyMatch
  | literal (r : Nat)
  | anyCharNotNL
  | concat (a b : Regexp)
  | quest (a : Regexp)
  | star (a : Regexp)
  | plus (a : Regexp)
deriving DecidableEq, Repr

/-- Whether a parsed expression is a repetition. -/
def Regexp.isRepeat : Regexp → Bool
  | Regexp.quest _ => true
  | Regexp.star _ => true
  | Regexp.plus _ => true
  | _ => false

/-- Whether a byte is an ASCII letter or digit. -/
def isalnum (c : Nat) : Bool :=
  (48 ≤ c && c ≤ 57) || (65 ≤ c && c ≤ 90) || (97 ≤ c && c ≤ 122)

/-- The parse loop of `regexp/syntax` on an ASCII pattern, with the pieces parsed so far
on a stack (last piece first).  A backslash before a punctuation character makes that
character a literal; `.` is any character but newline; `?`, `*`, `+` apply to the last
piece and are an error without one; `none` is a parse error or a pattern outside the
fragment (groups, classes, alternation, anchors, counted, lazy or stacked repetition,
other escapes, non-ASCII). -/
def parsePieces : Bytes → List Regexp → Option (List Regexp)
  | [], stack => some stack
  | 92 :: c :: rest, stack =>
    if c < 0x80 ∧ isalnum c = false then parsePieces rest (Regexp.literal c :: stack) else none
  | c :: rest, stack =>
    if c = 92 ∨ 0x80 ≤ c then none
    else if c = 46 then parsePieces rest (Regexp.anyCharNotNL :: stack)
    else if c = 63 ∨ c = 42 ∨ c = 43 then
      match stack with
      | [] => none
      | a :: stack =>
        if a.isRepeat then none
        else if c = 63 then parsePieces rest (Regexp.quest a :: stack)
        else if c = 42 then parsePieces rest (Regexp.star a :: stack)
        else parsePieces rest (Regexp.plus a :: stack)
    else if c = 40 ∨ c = 41 ∨ c = 124 ∨ c = 91 ∨ c = 93 ∨ c = 123 ∨ c = 125 ∨ c = 94 ∨ c = 36 then
      none
    else parsePieces rest (Regexp.literal c :: stack)

/-- The concatenation of the pieces of a stack (last piece first). -/
def concatPieces : List Regexp → Regexp
  | [] => Regexp.emptyMatch
  | [a] => a
  | a :: stack => Regexp.concat (concatPieces stack) a

/-- Go `regexp.Compile`, on the fragment of this model. -/
def Compile (pattern : Bytes) : Option Regexp :=
  (parsePieces pattern []).map concatPieces

/-- Go `regexp.MustCompile`: the compiled expression, or `none` where Go panics. -/
def MustCompile (pattern : Bytes) : Option Regexp := Compile pattern

/-- The widths, best first, of the matches of a repetition of a matcher `f` at the start
of `s`; an iteration matches at least one byte. -/
def starEnds (f : Bytes → List Nat) : Nat → Bytes → List Nat
  | 0, _ => [0]
  | fuel + 1, s =>
    (((f s).filter (0 < ·)).flatMap fun i => (starEnds f fuel (s.drop i)).map (i + ·)) ++ [0]

/-- The widths in bytes, best first (leftmost-first: greedy repetition), of the matches of
an expression at the start of `s`. -/
def Regexp.ends : Regexp → Bytes → List Nat
  | Regexp.emptyMatch, _ => [0]
  | Regexp.literal r, s => if 0 < (step s 0).2 ∧ (step s 0).1 = r then [(step s 0).2] else []
  | Regexp.anyCharNotNL, s =>
    if 0 < (step s 0).2 ∧ (step s 0).1 ≠ 10 then [(step s 0).2] else []
  | Regexp.concat a b, s => (a.ends s).flatMap fun i => (b.ends (s.drop i)).map (i + ·)
  | Regexp.quest a, s => a.ends s ++ [0]
  | Regexp.star a, s => starEnds a.ends s.length s
  | Regexp.plus a, s =>
    (a.ends s).flatMap fun i => (starEnds a.ends s.length (s.drop i)).map (i + ·)

/-- The search of `doExecute` from the position `pos`, with `t` the text from `pos` on:
the bounds of the leftmost match, the best one at that start. -/
def search (re : Regexp) : Nat → Bytes → Nat → Option (Nat × Nat)
  | 0, _, _ => none
  | fuel + 1, t, pos =>
    match (re.ends t).head? with
    | some e => some (pos, pos + e)
    | none => if (step t 0).2 = 0 then none else search re fuel (t.drop (step t 0).2) (pos + (step t 0).2)

/-- The method `doExecute` of a compiled expression on a string: the leftmost match at or
after `pos`. -/
def doExecute (re : Regexp) (s : Bytes) (pos : Nat) : Option (Nat × Nat) :=
  search re (s.length + 1 - pos) (s.drop pos) pos

/-- The loop of the method `allMatches` with at most `fuel` rounds left: `pos` is where
the next search starts, `prevMatchEnd` the end of the previous match (-1 at the start). -/
def allMatchesLoop (re : Regexp) (s : Bytes) : Nat → Nat → Int → List (Nat × Nat)
  | 0, _, _ => []
  | fuel + 1, pos, prevMatchEnd =>
    if pos ≤ s.length then
      match doExecute re s pos with
      | none => []
      | some m =>
        let accept : Bool := !(m.2 = pos ∧ (m.1 : Int) = prevMatchEnd)
        let pos1 :=
          if m.2 = pos then
            (if 0 < (step s pos).2 then pos + (step s pos).2 else s.length + 1)
          else m.2
        (if accept then [m] else []) ++ allMatchesLoop re s fuel pos1 m.2
    else []

/-- The method `FindAllStringIndex(s, -1)`: the bounds of all successive non-overlapping
matches of the expression in `s`. -/
def FindAllStringIndex (re : Regexp) (s : Bytes) : List (Nat × Nat) :=
  allMatchesLoop re s (s.length + 2) 0 (-1)

/-- The pattern of `phre`: the raw string literal with a backslash and a question mark. -/
def phrePattern : Bytes := [92, 63]

/-- The variable `phre`, when `regexp.MustCompile` does not panic. -/
def phre : Option Regexp := MustCompile phrePattern

/-- What the search needs of a decoded rune and width at a first byte `b ≥ 0x80`: the rune
is not `?`, the width is positive and within the text, and no byte it spans is `?`. -/
def Good (b : Nat) (t : Bytes) (d : Nat × Nat) : Prop :=
  d.1 ≠ 63 ∧ 1 ≤ d.2 ∧ d.2 ≤ (b :: t).length ∧ ∀ x ∈ (b :: t).take d.2, x ≠ 63

/-- The matches the claim describes, for the text `t` that starts at offset `pos`: one
match of width one at every byte `?`. -/
def marks : Bytes → Nat → List (Nat × Nat)
  | [], _ => []
  | b :: t, pos => if b = 63 then (pos, pos + 1) :: marks t (pos + 1) else marks t (pos + 1)


/-! ## Lemmas on C memory -/

theorem blockAt_fresh (heap : List Block) (b : Block) :
    blockAt (heap ++ [b]) (heap.length + 1) = some b := by
  simp [blockAt]

theorem modify_fresh {α : Type} (f : α → α) (l : List α) (b : α) :
    (l ++ [b]).modify f l.length = l ++ [f b] := by
  induction l with
  | nil => rfl
  | cons a l ih => simp [List.modify_succ_cons, ih]

theorem setBytes_fresh (heap : List Block) (b : Block) (bs : Bytes) :
    setBytes (heap ++ [b]) (heap.length + 1) bs = heap ++ [{ b with bytes := bs }] := by
  simp [setBytes, modify_fresh]

theorem bytesAt_fresh (heap : List Block) (b : Block) :
    bytesAt (heap ++ [b]) (heap.length + 1) = b.bytes := by
  simp [bytesAt, blockAt_fresh]

theorem overwrite_length (buf src : Bytes) : (overwrite buf src).length = buf.length := by
  simp [overwrite]; omega

theorem lit_AL32UTF8 : lit "AL32UTF8" = [65, 76, 51, 50, 85, 84, 70, 56] := by
  decide


theorem sqlRegister_free (name : Bytes) (d : OCI8DriverStruct) (w : World)
    (h : w.registered name = false) :
    sqlRegister name (some d) w =
      ({ defaultCharset := w.defaultCharset
         drivers := w.drivers ++ [(name, Registered.oci8 d)]
         heap := w.heap
         trace := w.trace ++ [Event.sqlRegister name d] }, none) := by
  simp [sqlRegister, h, World.emit]

theorem sqlRegister_taken (name : Bytes) (d : OCI8DriverStruct) (w : World)
    (h : w.registered name = true) :
    sqlRegister name (some d) w =
      ({ defaultCharset := w.defaultCharset
         drivers := w.drivers
         heap := w.heap
         trace := w.trace ++ [Event.sqlRegister name d] },
        some (lit "sql: Register called twice for driver " ++ name)) := by
  simp [sqlRegister, h, World.emit]

theorem init_of_taken (k : OCIHeader) (n : Native) (w0 : World)
    (hreg : w0.registered (lit "oci8") = true) :
    init k n w0 =
      ({ defaultCharset := w0.defaultCharset
         drivers := w0.drivers
         heap := w0.heap
         trace := w0.trace ++ [Event.sqlRegister (lit "oci8") OCI8Driver] },
        some (lit "sql: Register called twice for driver " ++ lit "oci8")) := by
  simp [init, sqlRegister_taken _ _ _ hreg]

theorem init_of_success (k : OCIHeader) (n : Native) (w0 : World)
    (hreg : w0.registered (lit "oci8") = false) (h : envStatus k n = k.OCI_SUCCESS) :
    init k n w0 =
      ({ defaultCharset := n.OCINlsCharSetNameToId (envHandle k n) (lit "AL32UTF8")
         drivers := w0.drivers ++ [(lit "oci8", Registered.oci8 OCI8Driver)]
         heap := w0.heap ++ [{ bytes := lit "AL32UTF8" ++ [0], freed := true }]
         trace := w0.trace ++ [Event.sqlRegister (lit "oci8") OCI8Driver,
          Event.envCreate k.OCI_DEFAULT k.OCI_SUCCESS (envHandle k n),
          Event.malloc 9 (w0.heap.length + 1),
          Event.charSetNameToId (envHandle k n) (w0.heap.length + 1) (lit "AL32UTF8")
            (n.OCINlsCharSetNameToId (envHandle k n) (lit "AL32UTF8")),
          Event.free (w0.heap.length + 1),
          Event.handleFree (envHandle k n) k.OCI_HTYPE_ENV] }, none) := by
  unfold envStatus at h
  simp [init, sqlRegister_free _ _ _ hreg, h, envHandle, printOut, World.emit, cString,
    malloc, free, setBytes_fresh, modify_fresh, cstrAt, bytesAt_fresh, lit_AL32UTF8,
    List.takeWhile]

theorem cString_eq (n : Native) (s : Bytes) (w : World) :
    cString n s w = (w.heap.length + 1,
      { defaultCharset := w.defaultCharset
        drivers := w.drivers
        heap := w.heap ++ [{ bytes := s ++ [0], freed := false }]
        trace := w.trace ++ [Event.malloc (s.length + 1) (w.heap.length + 1)] }) := by
  simp [cString, malloc, setBytes_fresh]

theorem cStringN_eq (n : Native) (s : Bytes) (size : Nat) (w : World) :
    cStringN n s size w = (w.heap.length + 1,
      { defaultCharset := w.defaultCharset
        drivers := w.drivers
        heap := w.heap ++ [{
          bytes := (overwrite ((List.range size).map (n.junk (w.heap.length + 1)))
            (s.take (size - 1) ++ [0])),
          freed := false }]
        trace := w.trace ++ [Event.malloc size (w.heap.length + 1)] }) := by
  simp [cStringN, malloc, setBytes_fresh, bytesAt_fresh]

theorem cGoStringN_fresh (d : Nat) (r : List (Bytes × Registered)) (heap : List Block)
    (b : Block) (t : List Event) (size : Nat) :
    cGoStringN (heap.length + 1) size
        { defaultCharset := d, drivers := r, heap := heap ++ [b], trace := t } =
      (b.bytes.take size,
        { defaultCharset := d, drivers := r, heap := heap ++ [b],
          trace := t ++ [Event.cRead (heap.length + 1) size] }) := by
  simp [cGoStringN, bytesAt_fresh, World.emit]

theorem ociErrorGet_fresh (n : Native) (hndl recordno : Nat) (result : Int) (bufsiz htype : Nat)
    (d : Nat) (r : List (Bytes × Registered)) (heap : List Block) (b : Block)
    (t : List Event) :
    ociErrorGet n hndl recordno result (heap.length + 1) bufsiz htype
        { defaultCharset := d, drivers := r, heap := heap ++ [b], trace := t } =
      (((n.OCIErrorGet hndl recordno result bufsiz htype).1,
        (n.OCIErrorGet hndl recordno result bufsiz htype).2.1),
        { defaultCharset := d
          drivers := r
          heap := heap ++ [{
            bytes := (overwrite b.bytes
              ((n.OCIErrorGet hndl recordno result bufsiz htype).2.2.take bufsiz)),
            freed := b.freed }]
          trace := t ++ [Event.errorGet hndl recordno (heap.length + 1) bufsiz htype
            (n.OCIErrorGet hndl recordno result bufsiz htype).1] }) := by
  simp [ociErrorGet, setBytes_fresh, bytesAt_fresh]

set_option maxRecDepth 20000 in
theorem init_of_error (k : OCIHeader) (n : Native) (w0 : World) (hk : k.Distinct)
    (hreg : w0.registered (lit "oci8") = false) (h : envStatus k n = k.OCI_ERROR) :
    init k n w0 =
      ({ defaultCharset := w0.defaultCharset
         drivers := w0.drivers ++ [(lit "oci8", Registered.oci8 OCI8Driver)]
         heap := w0.heap ++ [{ bytes := lit "test" ++ [0], freed := false },
           { bytes := lit "test" ++ [0], freed := false },
           { bytes := errbufAfterLookup k n w0, freed := false }]
         trace := w0.trace ++ [Event.sqlRegister (lit "oci8") OCI8Driver,
          Event.envCreate k.OCI_DEFAULT k.OCI_ERROR (envHandle k n),
          Event.stdout (lit "Error - OCI_ERROR\n"),
          Event.malloc 5 (w0.heap.length + 1),
          Event.cRead (w0.heap.length + 1) 4,
          Event.stdout (lit "[116 101 115 116]\n"),
          Event.malloc 5 (w0.heap.length + 2),
          Event.cRead (w0.heap.length + 2) 4,
          Event.stdout (lit "test\n"),
          Event.malloc 1024 (w0.heap.length + 3),
          Event.errorGet (envHandle k n) 1 (w0.heap.length + 3) 1024 k.OCI_HTYPE_ENV
            (n.OCIErrorGet (envHandle k n) 1 k.OCI_ERROR 1024 k.OCI_HTYPE_ENV).1,
          Event.stdout ((sprint
            (n.OCIErrorGet (envHandle k n) 1 k.OCI_ERROR 1024 k.OCI_HTYPE_ENV).1) ++ lit "\n"),
          Event.cRead (w0.heap.length + 3) 512,
          Event.stdout (lit "ERROR MESSAGE: " ++ (errbufAfterLookup k n w0).take 512
            ++ lit "\n")] },
        some (lit "OCIEnvCreate error: " ++
          sprint (n.OCIErrorGet (envHandle k n) 1 k.OCI_ERROR 1024 k.OCI_HTYPE_ENV).2.1)) := by
  unfold envStatus at h
  simp only [OCIHeader.Distinct, List.nodup_cons, List.mem_cons, not_or] at hk
  obtain ⟨⟨h1, h2, h3, h4, -⟩, ⟨h5, h6, h7, -⟩, ⟨h8, h9, -⟩, ⟨h10, -⟩, -⟩ := hk
  simp only [init, sqlRegister_free _ _ _ hreg, h, envHandle, printOut, World.emit, cString_eq,
    cStringN_eq, cGoStringN_fresh, ociErrorGet_fresh, Ne.symm h4, Ne.symm h7, Ne.symm h9, Ne.symm h10,
    ne_eq, not_false_eq_true, if_true, if_false, ite_true, ite_false]
  have e1 : sprintBytes (List.take 4 (lit "test" ++ [0])) ++ lit "\n" =
      lit "[116 101 115 116]\n" := by decide
  have e2 : List.take 4 (lit "test" ++ [0]) ++ lit "\n" = lit "test\n" := by decide
  have e3 : lit "ERROR MESSAGE:" ++ lit " " = lit "ERROR MESSAGE: " := by decide
  have e4 : List.take (1024 - 1) (lit "") ++ [0] = [0] := by decide
  have e5 : List.length (lit "test") + 1 = 5 := by decide
  rw [e1, e2, e3, e4, e5]
  simp only [errbufAfterLookup, envHandle, List.length_append, List.length_singleton,
    List.append_assoc, List.singleton_append, List.cons_append, List.nil_append,
    List.length_cons, List.length_nil, Nat.add_assoc, Nat.reduceAdd]

theorem init_of_other (k : OCIHeader) (n : Native) (w0 : World)
    (hreg : w0.registered (lit "oci8") = false)
    (hs : envStatus k n ≠ k.OCI_SUCCESS) (he : envStatus k n ≠ k.OCI_ERROR) :
    init k n w0 =
      ({ defaultCharset := w0.defaultCharset
         drivers := w0.drivers ++ [(lit "oci8", Registered.oci8 OCI8Driver)]
         heap := w0.heap
         trace := w0.trace ++ [Event.sqlRegister (lit "oci8") OCI8Driver,
          Event.envCreate k.OCI_DEFAULT (envStatus k n) (envHandle k n),
          Event.stdout (statusLine k (envStatus k n))] },
        some (lit "OCIEnvCreate error: " ++ sprint (envStatus k n))) := by
  unfold envStatus at hs he
  simp only [init, sqlRegister_free _ _ _ hreg, envStatus, envHandle, statusLine, hs, he,
    printOut, World.emit, ne_eq, not_false_eq_true, if_true, if_false, ite_true, ite_false]
  split_ifs <;> simp

theorem initEvents_of_eq (k : OCIHeader) (n : Native) (w0 : World) (w : World)
    (p : Option Bytes) (evs : List Event)
    (h : init k n w0 = (w, p)) (ht : w.trace = w0.trace ++ evs) :
    initEvents k n w0 = evs := by
  simp [initEvents, h, ht]

/-! ## Lemmas on the decoder and the search -/

theorem hi_or_left (x y : Nat) (h : 64 ≤ x) : 64 ≤ x ||| y := by
  by_contra hlt
  have h6 : x ≥ 2 ^ 6 := h
  obtain ⟨i, hi, hbit⟩ := Nat.ge_two_pow_implies_high_bit_true h6
  have hlt2 : x ||| y < 2 ^ i :=
    lt_of_lt_of_le (Nat.lt_of_not_le hlt) (Nat.pow_le_pow_right (show 0 < 2 by decide) hi)
  have := Nat.testBit_lt_two_pow hlt2
  simp [hbit] at this

theorem hi_or_right (x y : Nat) (h : 64 ≤ y) : 64 ≤ x ||| y := by
  rw [Nat.or_comm]; exact hi_or_left y x h

theorem and_1F (b : Nat) : b &&& 0x1F = b % 32 := Nat.and_pow_two_sub_one_eq_mod b 5
theorem and_3F (b : Nat) : b &&& 0x3F = b % 64 := Nat.and_pow_two_sub_one_eq_mod b 6
theorem and_0F (b : Nat) : b &&& 0x0F = b % 16 := Nat.and_pow_two_sub_one_eq_mod b 4
theorem and_07 (b : Nat) : b &&& 0x07 = b % 8 := Nat.and_pow_two_sub_one_eq_mod b 3

theorem rune2_ge (b s1 : Nat) (h1 : 0xC2 ≤ b) (h2 : b < 0xE0) :
    64 ≤ (b &&& 0x1F) <<< 6 ||| (s1 &&& 0x3F) := by
  apply hi_or_left
  rw [and_1F, Nat.shiftLeft_eq]
  omega

theorem rune3_ge (b s1 s2 : Nat) (h1 : 0xE0 ≤ b) (h2 : b < 0xF0)
    (h3 : b = 0xE0 → 0xA0 ≤ s1) (h4 : s1 ≤ 0xBF) :
    64 ≤ (b &&& 0x0F) <<< 12 ||| (s1 &&& 0x3F) <<< 6 ||| (s2 &&& 0x3F) := by
  apply hi_or_left
  rw [and_0F, and_3F, Nat.shiftLeft_eq, Nat.shiftLeft_eq]
  by_cases hb : b = 0xE0
  · apply hi_or_right
    have := h3 hb
    omega
  · apply hi_or_left
    omega

theorem rune4_ge (b s1 s2 s3 : Nat) (h1 : 0xF0 ≤ b) (h2 : b < 0xF5)
    (h3 : b = 0xF0 → 0x90 ≤ s1) (h4 : s1 ≤ 0xBF) :
    64 ≤ (b &&& 0x07) <<< 18 ||| (s1 &&& 0x3F) <<< 12 ||| (s2 &&& 0x3F) <<< 6 |||
      (s3 &&& 0x3F) := by
  apply hi_or_left
  apply hi_or_left
  rw [and_07, and_3F, Nat.shiftLeft_eq, Nat.shiftLeft_eq]
  by_cases hb : b = 0xF0
  · apply hi_or_right
    have := h3 hb
    omega
  · apply hi_or_left
    omega

theorem first_cases (b : Nat) (hb : 0x80 ≤ b) :
    first b = 0xF1 ∨ (first b = 0x02 ∧ 0xC2 ≤ b ∧ b < 0xE0) ∨ (first b = 0x13 ∧ b = 0xE0) ∨
    (first b = 0x03 ∧ 0xE1 ≤ b ∧ b < 0xF0) ∨ (first b = 0x23 ∧ b = 0xED) ∨
    (first b = 0x34 ∧ b = 0xF0) ∨ (first b = 0x04 ∧ 0xF1 ≤ b ∧ b < 0xF4) ∨
    (first b = 0x44 ∧ b = 0xF4) := by
  unfold first
  rw [if_neg (by omega)]
  by_cases c1 : b < 0xC2
  · rw [if_pos c1]; exact Or.inl rfl
  rw [if_neg c1]
  by_cases c2 : b < 0xE0
  · rw [if_pos c2]; exact Or.inr (Or.inl ⟨rfl, by omega, c2⟩)
  rw [if_neg c2]
  by_cases c3 : b = 0xE0
  · rw [if_pos c3]; exact Or.inr (Or.inr (Or.inl ⟨rfl, c3⟩))
  rw [if_neg c3]
  by_cases c4 : b < 0xED
  · rw [if_pos c4]; exact Or.inr (Or.inr (Or.inr (Or.inl ⟨rfl, by omega, by omega⟩)))
  rw [if_neg c4]
  by_cases c5 : b = 0xED
  · rw [if_pos c5]; exact Or.inr (Or.inr (Or.inr (Or.inr (Or.inl ⟨rfl, c5⟩))))
  rw [if_neg c5]
  by_cases c6 : b < 0xF0
  · rw [if_pos c6]; exact Or.inr (Or.inr (Or.inr (Or.inl ⟨rfl, by omega, c6⟩)))
  rw [if_neg c6]
  by_cases c7 : b = 0xF0
  · rw [if_pos c7]; exact Or.inr (Or.inr (Or.inr (Or.inr (Or.inr (Or.inl ⟨rfl, c7⟩)))))
  rw [if_neg c7]
  by_cases c8 : b < 0xF4
  · rw [if_pos c8]
    exact Or.inr (Or.inr (Or.inr (Or.inr (Or.inr (Or.inr (Or.inl ⟨rfl, by omega, c8⟩))))))
  rw [if_neg c8]
  by_cases c9 : b = 0xF4
  · rw [if_pos c9]
    exact Or.inr (Or.inr (Or.inr (Or.inr (Or.inr (Or.inr (Or.inr ⟨rfl, c9⟩))))))
  rw [if_neg c9]; exact Or.inl rfl

/-- The decoder with its local bindings unfolded. -/
theorem decode_unfold (s : Bytes) :
    DecodeRuneInString s =
      if s.length < 1 then (RuneError, 0) else
      if first (s.getD 0 0) ≥ 0xF0 then
        (if first (s.getD 0 0) = 0xF0 then s.getD 0 0 else RuneError, 1)
      else
      if s.length < first (s.getD 0 0) &&& 7 then (RuneError, 1) else
      if s.getD 1 0 < (acceptRanges (first (s.getD 0 0) >>> 4)).1 ∨
          (acceptRanges (first (s.getD 0 0) >>> 4)).2 < s.getD 1 0 then (RuneError, 1) else
      if first (s.getD 0 0) &&& 7 ≤ 2 then
        ((s.getD 0 0 &&& 0x1F) <<< 6 ||| (s.getD 1 0 &&& 0x3F), 2) else
      if s.getD 2 0 < 0x80 ∨ 0xBF < s.getD 2 0 then (RuneError, 1) else
      if first (s.getD 0 0) &&& 7 ≤ 3 then
        ((s.getD 0 0 &&& 0x0F) <<< 12 ||| (s.getD 1 0 &&& 0x3F) <<< 6 |||
          (s.getD 2 0 &&& 0x3F), 3) else
      if s.getD 3 0 < 0x80 ∨ 0xBF < s.getD 3 0 then (RuneError, 1) else
      ((s.getD 0 0 &&& 0x07) <<< 18 ||| (s.getD 1 0 &&& 0x3F) <<< 12 |||
        (s.getD 2 0 &&& 0x3F) <<< 6 ||| (s.getD 3 0 &&& 0x3F), 4) := by
  rfl

theorem good_err (b : Nat) (t : Bytes) (hb : 0x80 ≤ b) : Good b t (RuneError, 1) := by
  refine ⟨by decide, le_refl 1, by simp, ?_⟩
  intro x hx
  simp at hx
  omega

theorem good2 (b s1 r : Nat) (t : Bytes) (hb : 0x80 ≤ b) (h1 : 0x80 ≤ s1) (hr : 64 ≤ r) :
    Good b (s1 :: t) (r, 2) := by
  refine ⟨by simp; omega, by simp, by simp, ?_⟩
  intro x hx
  simp at hx
  omega

theorem good3 (b s1 s2 r : Nat) (t : Bytes) (hb : 0x80 ≤ b) (h1 : 0x80 ≤ s1) (h2 : 0x80 ≤ s2)
    (hr : 64 ≤ r) : Good b (s1 :: s2 :: t) (r, 3) := by
  refine ⟨by simp; omega, by simp, by simp, ?_⟩
  intro x hx
  simp at hx
  omega

theorem good4 (b s1 s2 s3 r : Nat) (t : Bytes) (hb : 0x80 ≤ b) (h1 : 0x80 ≤ s1)
    (h2 : 0x80 ≤ s2) (h3 : 0x80 ≤ s3) (hr : 64 ≤ r) : Good b (s1 :: s2 :: s3 :: t) (r, 4) := by
  refine ⟨by simp; omega, by simp, by simp, ?_⟩
  intro x hx
  simp at hx
  omega

theorem good_body (b : Nat) (t : Bytes) (sz lo hi : Nat) (hb : 0x80 ≤ b)
    (hsz : 2 ≤ sz) (hsz4 : sz ≤ 4) (hlo : 0x80 ≤ lo)
    (h2 : sz = 2 → 0xC2 ≤ b ∧ b < 0xE0)
    (h3 : sz = 3 → 0xE0 ≤ b ∧ b < 0xF0 ∧ (b = 0xE0 → 0xA0 ≤ lo) ∧ hi ≤ 0xBF)
    (h4 : sz = 4 → 0xF0 ≤ b ∧ b < 0xF5 ∧ (b = 0xF0 → 0x90 ≤ lo) ∧ hi ≤ 0xBF) :
    Good b t
      (if (b :: t).length < sz then (RuneError, 1) else
      if (b :: t).getD 1 0 < lo ∨ hi < (b :: t).getD 1 0 then (RuneError, 1) else
      if sz ≤ 2 then
        ((b &&& 0x1F) <<< 6 ||| ((b :: t).getD 1 0 &&& 0x3F), 2) else
      if (b :: t).getD 2 0 < 0x80 ∨ 0xBF < (b :: t).getD 2 0 then (RuneError, 1) else
      if sz ≤ 3 then
        ((b &&& 0x0F) <<< 12 ||| ((b :: t).getD 1 0 &&& 0x3F) <<< 6 |||
          ((b :: t).getD 2 0 &&& 0x3F), 3) else
      if (b :: t).getD 3 0 < 0x80 ∨ 0xBF < (b :: t).getD 3 0 then (RuneError, 1) else
      ((b &&& 0x07) <<< 18 ||| ((b :: t).getD 1 0 &&& 0x3F) <<< 12 |||
        ((b :: t).getD 2 0 &&& 0x3F) <<< 6 ||| ((b :: t).getD 3 0 &&& 0x3F), 4)) := by
  by_cases c1 : (b :: t).length < sz
  · rw [if_pos c1]; exact good_err b t hb
  rw [if_neg c1]
  rcases t with _ | ⟨s1, t⟩
  · exact absurd (show [b].length < sz from hsz) c1
  rw [List.getD_cons_succ, List.getD_cons_zero]
  by_cases c2 : s1 < lo ∨ hi < s1
  · rw [if_pos c2]; exact good_err b _ hb
  rw [if_neg c2]
  have hs1 : lo ≤ s1 ∧ s1 ≤ hi := by omega
  by_cases c3 : sz ≤ 2
  · rw [if_pos c3]
    have h := h2 (by omega)
    exact good2 b s1 _ t hb (by omega) (rune2_ge b s1 h.1 h.2)
  rw [if_neg c3]
  rcases t with _ | ⟨s2, t⟩
  · exact absurd (show [b, s1].length < sz by simp; omega) c1
  rw [List.getD_cons_succ, List.getD_cons_succ, List.getD_cons_zero]
  by_cases c4 : s2 < 0x80 ∨ 0xBF < s2
  · rw [if_pos c4]; exact good_err b _ hb
  rw [if_neg c4]
  by_cases c5 : sz ≤ 3
  · rw [if_pos c5]
    have h := h3 (by omega)
    exact good3 b s1 s2 _ t hb (by omega) (by omega)
      (rune3_ge b s1 s2 h.1 h.2.1 (fun e => by have := h.2.2.1 e; omega) (by omega))
  rw [if_neg c5]
  rcases t with _ | ⟨s3, t⟩
  · exact absurd (show [b, s1, s2].length < sz by simp; omega) c1
  rw [List.getD_cons_succ, List.getD_cons_succ, List.getD_cons_succ, List.getD_cons_zero]
  by_cases c6 : s3 < 0x80 ∨ 0xBF < s3
  · rw [if_pos c6]; exact good_err b _ hb
  rw [if_neg c6]
  have h := h4 (by omega)
  exact good4 b s1 s2 s3 _ t hb (by omega) (by omega) (by omega)
    (rune4_ge b s1 s2 s3 h.1 h.2.1 (fun e => by have := h.2.2.1 e; omega) (by omega))

theorem decode_spec (b : Nat) (t : Bytes) (hb : 0x80 ≤ b) :
    Good b t (DecodeRuneInString (b :: t)) := by
  rw [decode_unfold]
  rw [if_neg (by simp)]
  simp only [List.getD_cons_zero]
  rcases first_cases b hb with h | ⟨h, h1, h2⟩ | ⟨h, h1⟩ | ⟨h, h1, h2⟩ | ⟨h, h1⟩ | ⟨h, h1⟩ |
    ⟨h, h1, h2⟩ | ⟨h, h1⟩
  · rw [h, if_pos (by decide), if_neg (by decide)]
    exact good_err b t hb
  · rw [h, if_neg (by decide)]
    exact good_body b t _ _ _ hb (by decide) (by decide) (by decide)
      (fun _ => ⟨h1, h2⟩) (fun e => absurd e (by decide)) (fun e => absurd e (by decide))
  · rw [h, if_neg (by decide)]
    exact good_body b t _ _ _ hb (by decide) (by decide) (by decide)
      (fun e => absurd e (by decide))
      (fun _ => ⟨by omega, by omega, fun _ => by decide, by decide⟩)
      (fun e => absurd e (by decide))
  · rw [h, if_neg (by decide)]
    exact good_body b t _ _ _ hb (by decide) (by decide) (by decide)
      (fun e => absurd e (by decide))
      (fun _ => ⟨by omega, by omega, fun e => by omega, by decide⟩)
      (fun e => absurd e (by decide))
  · rw [h, if_neg (by decide)]
    exact good_body b t _ _ _ hb (by decide) (by decide) (by decide)
      (fun e => absurd e (by decide))
      (fun _ => ⟨by omega, by omega, fun e => by omega, by decide⟩)
      (fun e => absurd e (by decide))
  · rw [h, if_neg (by decide)]
    exact good_body b t _ _ _ hb (by decide) (by decide) (by decide)
      (fun e => absurd e (by decide)) (fun e => absurd e (by decide))
      (fun _ => ⟨by omega, by omega, fun _ => by decide, by decide⟩)
  · rw [h, if_neg (by decide)]
    exact good_body b t _ _ _ hb (by decide) (by decide) (by decide)
      (fun e => absurd e (by decide)) (fun e => absurd e (by decide))
      (fun _ => ⟨by omega, by omega, fun e => by omega, by decide⟩)
  · rw [h, if_neg (by decide)]
    exact good_body b t _ _ _ hb (by decide) (by decide) (by decide)
      (fun e => absurd e (by decide)) (fun e => absurd e (by decide))
      (fun _ => ⟨by omega, by omega, fun e => by omega, by decide⟩)

theorem step_nil : step [] 0 = (-1, 0) := rfl

theorem step_question (t : Bytes) : step (63 :: t) 0 = (63, 1) := by
  simp [step]

theorem step_other (b : Nat) (t : Bytes) (hb : b ≠ 63) :
    (step (b :: t) 0).1 ≠ 63 ∧ 1 ≤ (step (b :: t) 0).2 ∧
    (step (b :: t) 0).2 ≤ (b :: t).length ∧
    ∀ x ∈ (b :: t).take (step (b :: t) 0).2, x ≠ 63 := by
  by_cases h : b < 0x80
  · have e : step (b :: t) 0 = ((b : Int), 1) := by simp [step, h]
    rw [e]
    refine ⟨by dsimp only; exact_mod_cast hb, le_refl 1, by simp, ?_⟩
    intro x hx
    simp at hx
    omega
  · have e : step (b :: t) 0 =
        (((DecodeRuneInString (b :: t)).1 : Int), (DecodeRuneInString (b :: t)).2) := by
      simp [step, h]
    rw [e]
    obtain ⟨g1, g2, g3, g4⟩ := decode_spec b t (by omega)
    exact ⟨by dsimp only; exact_mod_cast g1, g2, g3, g4⟩

theorem ends_literal_nil : (Regexp.literal 63).ends [] = [] := by
  simp [Regexp.ends, step_nil]

theorem ends_literal_question (t : Bytes) : (Regexp.literal 63).ends (63 :: t) = [1] := by
  simp [Regexp.ends, step_question]

theorem ends_literal_other (b : Nat) (t : Bytes) (hb : b ≠ 63) :
    (Regexp.literal 63).ends (b :: t) = [] := by
  have h := (step_other b t hb).1
  simp [Regexp.ends, h]

theorem marks_skip (t : Bytes) (w pos : Nat) (h : ∀ x ∈ t.take w, x ≠ 63) :
    marks t pos = marks (t.drop w) (pos + w) := by
  induction w generalizing t pos with
  | zero => simp
  | succ w ih =>
    cases t with
    | nil => simp [marks]
    | cons b t =>
      have hb : b ≠ 63 := h b (by simp)
      have ht : ∀ x ∈ t.take w, x ≠ 63 := fun x hx => h x (by simp [hx])
      simp only [marks, hb, if_false, List.drop_succ_cons]
      rw [ih t (pos + 1) ht]
      congr 1
      omega

theorem search_spec (fuel : Nat) : ∀ (t : Bytes) (pos : Nat), t.length < fuel →
    (search (Regexp.literal 63) fuel t pos = none ∧ marks t pos = []) ∨
    ∃ j, search (Regexp.literal 63) fuel t pos = some (pos + j, pos + j + 1) ∧
      j < t.length ∧
      marks t pos = (pos + j, pos + j + 1) :: marks (t.drop (j + 1)) (pos + j + 1) := by
  induction fuel with
  | zero => intro t pos h; omega
  | succ fuel ih =>
    intro t pos hlen
    cases t with
    | nil =>
      left
      simp [search, ends_literal_nil, step_nil, marks]
    | cons b t =>
      by_cases hb : b = 63
      · subst hb
        right
        refine ⟨0, ?_, by simp, ?_⟩
        · simp [search, ends_literal_question]
        · simp [marks]
      · obtain ⟨-, w1, w2, w3⟩ := step_other b t hb
        have hne : (step (b :: t) 0).2 ≠ 0 := by omega
        have hs : search (Regexp.literal 63) (fuel + 1) (b :: t) pos =
            search (Regexp.literal 63) fuel ((b :: t).drop (step (b :: t) 0).2)
              (pos + (step (b :: t) 0).2) := by
          simp [search, ends_literal_other b t hb, hne]
        have hm := marks_skip (b :: t) (step (b :: t) 0).2 pos w3
        have hl : ((b :: t).drop (step (b :: t) 0).2).length < fuel := by
          rw [List.length_drop]; simp at hlen w2 ⊢; omega
        rcases ih _ (pos + (step (b :: t) 0).2) hl with ⟨e1, e2⟩ | ⟨j, e1, e2, e3⟩
        · left
          exact ⟨by rw [hs, e1], by rw [hm, e2]⟩
        · right
          rw [List.length_drop] at e2
          refine ⟨(step (b :: t) 0).2 + j, ?_, by omega, ?_⟩
          · rw [hs, e1]; simp [Nat.add_assoc]
          · rw [hm, e3, List.drop_drop]
            simp [Nat.add_assoc, Nat.add_comm, Nat.add_left_comm]

theorem loop_spec (s : Bytes) (fuel : Nat) : ∀ (pos : Nat) (prev : Int),
    pos ≤ s.length → s.length - pos + 1 ≤ fuel →
    allMatchesLoop (Regexp.literal 63) s fuel pos prev = marks (s.drop pos) pos := by
  induction fuel with
  | zero => intro pos prev _ h; omega
  | succ fuel ih =>
    intro pos prev hpos hfuel
    have hl : (s.drop pos).length < s.length + 1 - pos := by
      rw [List.length_drop]; omega
    rw [allMatchesLoop, if_pos hpos, doExecute]
    rcases search_spec (s.length + 1 - pos) (s.drop pos) pos hl with ⟨e1, e2⟩ | ⟨j, e1, e2, e3⟩
    · rw [e1, e2]
    · rw [List.length_drop] at e2
      rw [e1, e3, List.drop_drop]
      have hne : ¬ (pos + j + 1 = pos) := by omega
      simp only [hne, false_and, if_false, Bool.not_false, decide_False, if_true,
        List.singleton_append]
      rw [ih (pos + j + 1) _ (by omega) (by omega)]
      simp [Nat.add_assoc, Nat.add_comm, Nat.add_left_comm]

theorem marks_eq_filter (t : Bytes) (pos : Nat) :
    marks t pos = ((List.range t.length).filter fun i => t.getD i 0 = 63).map
      fun i => (pos + i, pos + i + 1) := by
  induction t generalizing pos with
  | nil => simp [marks]
  | cons b t ih =>
    rw [marks, List.length_cons, List.range_succ_eq_map, List.filter_cons, List.filter_map]
    by_cases hb : b = 63
    · simp [hb, ih (pos + 1), Function.comp_def, Nat.add_assoc, Nat.add_comm, Nat.add_left_comm]
    · simp [hb, ih (pos + 1), Function.comp_def, Nat.add_assoc, Nat.add_comm, Nat.add_left_comm]

theorem marks_length (t : Bytes) (pos : Nat) : (marks t pos).length = t.count 63 := by
  induction t generalizing pos with
  | nil => simp [marks]
  | cons b t ih =>
    rw [marks]
    by_cases hb : b = 63
    · simp [hb, ih]
    · have : (b == 63) = false := by simpa using hb
      simp [hb, ih, List.count_cons, this]

theorem phre_eq : phre = some (Regexp.literal 63) := by decide

theorem phre_sample :
    phre.map (fun re => FindAllStringIndex re (lit "a=? and b='?' -- é?")) =
      some [(2, 3), (11, 12), (19, 20)] := by
  decide

/-! ## The claims on `init`

`sql.Register` returns only when no driver is registered under `oci8` yet; the
environment-create call is made, and returns a status, only then.  The theorems on what
`init` does with that status carry this as the hypothesis `hreg`. -/

/-- C2, counterexample: with the constants of `oci.h` and a native layer whose
environment-create call returns `OCI_SUCCESS_WITH_INFO` (1), `init` panics with
`OCIEnvCreate error: 1`, makes no character-set lookup and leaves `defaultCharset` at 0. -/
theorem init_success_with_info_aborts :
    envStatus oracleHeader (sampleNative 1 7) = oracleHeader.OCI_SUCCESS_WITH_INFO ∧
    (init oracleHeader (sampleNative 1 7) World.initial).2 =
      some (lit "OCIEnvCreate error: 1") ∧
    (initEvents oracleHeader (sampleNative 1 7) World.initial).any Event.isCharSetLookup = false ∧
    (init oracleHeader (sampleNative 1 7) World.initial).1.defaultCharset = 0 := by
  decide

/-- C2, amended: when the native environment-create call returns `OCI_SUCCESS_WITH_INFO`
(a code other than `OCI_SUCCESS`), `init` treats it as a failure: it prints the line
`Error - OCI_SUCCESS_WITH_INFO`, makes no character-set lookup, leaves `defaultCharset` as
it was and panics with `OCIEnvCreate error: ` followed by the code. Here `hreg` says that
`sql.Register` returns, so that the environment-create call is made: no driver is
registered under `oci8` before `init`. -/
theorem init_success_with_info_panics (k : OCIHeader) (n : Native) (w0 : World)
    (hreg : w0.registered (lit "oci8") = false)
    (hne : k.OCI_SUCCESS_WITH_INFO ≠ k.OCI_SUCCESS)
    (h : envStatus k n = k.OCI_SUCCESS_WITH_INFO) :
    (init k n w0).2 = some (lit "OCIEnvCreate error: " ++ sprint k.OCI_SUCCESS_WITH_INFO) ∧
    initEvents k n w0 = [Event.sqlRegister (lit "oci8") OCI8Driver,
      Event.envCreate k.OCI_DEFAULT k.OCI_SUCCESS_WITH_INFO (envHandle k n),
      Event.stdout (lit "Error - OCI_SUCCESS_WITH_INFO\n")] ∧
    (init k n w0).1.defaultCharset = w0.defaultCharset := by
  unfold envStatus at h
  simp [initEvents, init, sqlRegister_free _ _ _ hreg, h, hne, envHandle, printOut, World.emit]

/-- C2, witness: the amended statement at the constants of `oci.h`. -/
theorem init_success_with_info_panics_witness :
    (init oracleHeader (sampleNative 1 7) World.initial).2 =
      some (lit "OCIEnvCreate error: 1") ∧
    initEvents oracleHeader (sampleNative 1 7) World.initial =
      [Event.sqlRegister (lit "oci8") OCI8Driver, Event.envCreate 0 1 7,
        Event.stdout (lit "Error - OCI_SUCCESS_WITH_INFO\n")] ∧
    (init oracleHeader (sampleNative 1 7) World.initial).1.defaultCharset = 0 :=
  init_success_with_info_panics oracleHeader (sampleNative 1 7) World.initial
    (by decide) (by decide) (by decide)

/-- C3, counterexample: with the constants of `oci.h` and a native layer whose
environment-create call returns `OCI_NEED_DATA` (99), a non-success code other than
SuccessWithInfo and NoData, `init` panics without any native error-text lookup and
without allocating a buffer. -/
theorem init_need_data_fetches_no_text :
    envStatus oracleHeader (sampleNative 99 0) = oracleHeader.OCI_NEED_DATA ∧
    (init oracleHeader (sampleNative 99 0) World.initial).2 =
      some (lit "OCIEnvCreate error: 99") ∧
    (initEvents oracleHeader (sampleNative 99 0) World.initial).any Event.isErrorGet = false ∧
    (initEvents oracleHeader (sampleNative 99 0) World.initial).any Event.isMalloc = false := by
  decide

/-- C3, amended: for a non-success status of the native environment-create call, `init`
looks the error text up in the native layer exactly when the status is `OCI_ERROR`: then
there is one lookup, against the environment handle, for record 1, into the buffer of the
preceding 1024-byte allocation with the capacity 1024, and it is made before the panic.
For every other non-success status `init` makes no lookup: it prints one line and
panics. Here `hreg` says that
`sql.Register` returns, so that the environment-create call is made: no driver is
registered under `oci8` before `init`. -/
theorem init_fetches_text_iff_error (k : OCIHeader) (n : Native) (w0 : World)
    (hreg : w0.registered (lit "oci8") = false)
    (hk : k.Distinct) (hs : envStatus k n ≠ k.OCI_SUCCESS) :
    (init k n w0).2 ≠ none ∧
    (envStatus k n = k.OCI_ERROR →
      (initEvents k n w0).filter Event.isErrorGet =
        [Event.errorGet (envHandle k n) 1 (w0.heap.length + 3) 1024 k.OCI_HTYPE_ENV
          (n.OCIErrorGet (envHandle k n) 1 k.OCI_ERROR 1024 k.OCI_HTYPE_ENV).1] ∧
      (initEvents k n w0).filter Event.isMalloc =
        [Event.malloc 5 (w0.heap.length + 1), Event.malloc 5 (w0.heap.length + 2),
          Event.malloc 1024 (w0.heap.length + 3)]) ∧
    (envStatus k n ≠ k.OCI_ERROR →
      initEvents k n w0 = [Event.sqlRegister (lit "oci8") OCI8Driver,
        Event.envCreate k.OCI_DEFAULT (envStatus k n) (envHandle k n),
        Event.stdout (statusLine k (envStatus k n))]) := by
  by_cases he : envStatus k n = k.OCI_ERROR
  · have e := init_of_error k n w0 hk hreg he
    refine ⟨by simp [e], fun _ => ?_, fun hne => absurd he hne⟩
    rw [initEvents_of_eq k n w0 _ _ _ e rfl]
    simp [List.filter, Event.isErrorGet, Event.isMalloc]
  · have e := init_of_other k n w0 hreg hs he
    refine ⟨by simp [e], fun h => absurd h he, fun _ => ?_⟩
    rw [initEvents_of_eq k n w0 _ _ _ e rfl]

/-- C3, witness: the amended statement at the constants of `oci.h`: for the status
`OCI_ERROR` (-1) there is one lookup, into the third block of the C heap; for the status
`OCI_NEED_DATA` (99) the effects are the registration, the environment create and one
printed line. -/
theorem init_fetches_text_iff_error_witness :
    (initEvents oracleHeader (sampleNative (-1) 0) World.initial).filter Event.isErrorGet =
      [Event.errorGet 0 1 3 1024 1 0] ∧
    initEvents oracleHeader (sampleNative 99 0) World.initial =
      [Event.sqlRegister (lit "oci8") OCI8Driver, Event.envCreate 0 99 0,
        Event.stdout (lit "Error - OCI_NEED_DATA\n")] :=
  ⟨((init_fetches_text_iff_error oracleHeader (sampleNative (-1) 0) World.initial
      (by decide) (by decide) (by decide)).2.1 (by decide)).1,
    (init_fetches_text_iff_error oracleHeader (sampleNative 99 0) World.initial
      (by decide) (by decide) (by decide)).2.2 (by decide)⟩

/-- C5: `defaultCharset` is 0 before `init` runs; when the native environment-create call
returns `OCI_SUCCESS`, `init` does not panic, makes exactly one character-set lookup, for
the name `AL32UTF8` against the environment handle that call stored, and leaves
`defaultCharset` equal to the identifier the native layer returns for it. Here `hreg` says that
`sql.Register` returns, so that the environment-create call is made: no driver is
registered under `oci8` before `init`. -/
theorem init_resolves_default_charset (k : OCIHeader) (n : Native) (w0 : World)
    (hreg : w0.registered (lit "oci8") = false)
    (h : envStatus k n = k.OCI_SUCCESS) :
    World.initial.defaultCharset = 0 ∧
    (init k n w0).2 = none ∧
    (initEvents k n w0).filter Event.isCharSetLookup =
      [Event.charSetNameToId (envHandle k n) (w0.heap.length + 1) (lit "AL32UTF8")
        (n.OCINlsCharSetNameToId (envHandle k n) (lit "AL32UTF8"))] ∧
    (init k n w0).1.defaultCharset =
      n.OCINlsCharSetNameToId (envHandle k n) (lit "AL32UTF8") := by
  have e := init_of_success k n w0 hreg h
  refine ⟨rfl, by simp [e], ?_, by simp [e]⟩
  rw [initEvents_of_eq k n w0 _ _ _ e rfl]
  simp [List.filter, Event.isCharSetLookup]

/-- C5, witness: a native layer that knows `AL32UTF8` as 873. -/
theorem init_resolves_default_charset_witness :
    World.initial.defaultCharset = 0 ∧
    (init oracleHeader (sampleNative 0 7) World.initial).2 = none ∧
    (initEvents oracleHeader (sampleNative 0 7) World.initial).filter Event.isCharSetLookup =
      [Event.charSetNameToId 7 1 (lit "AL32UTF8") 873] ∧
    (init oracleHeader (sampleNative 0 7) World.initial).1.defaultCharset = 873 :=
  init_resolves_default_charset oracleHeader (sampleNative 0 7) World.initial
    (by decide) (by decide)

/-- C7, counterexample: in a program where another package has already registered a
driver under `oci8`, `init` panics inside `sql.Register` with
`sql: Register called twice for driver oci8`: its only effect is that call, the
environment-create call is never made, and the registry still holds the other driver
under `oci8`, so on this path `OCI8Driver` has not been registered. -/
theorem init_register_taken_aborts :
    World.taken.registered (lit "oci8") = true ∧
    (init oracleHeader (sampleNative 0 7) World.taken).2 =
      some (lit "sql: Register called twice for driver oci8") ∧
    initEvents oracleHeader (sampleNative 0 7) World.taken =
      [Event.sqlRegister (lit "oci8") OCI8Driver] ∧
    (initEvents oracleHeader (sampleNative 0 7) World.taken).any Event.isEnvCreate = false ∧
    (init oracleHeader (sampleNative 0 7) World.taken).1.drivers =
      [(lit "oci8", Registered.other)] := by
  decide

/-- C7, amended: on every path the first effect of `init` is the call
`sql.Register("oci8", OCI8Driver)`, and it is the only call of `sql.Register` that `init`
makes.  When no driver is registered under `oci8` yet, the call registers `OCI8Driver`
under `oci8` and nothing else, the native environment-create call follows it, and the
registration stands on every path after it, normal return or panic on the status.  When
a driver is already registered under `oci8`, `init` panics inside `sql.Register` with
`sql: Register called twice for driver oci8`, before any native call, and the registry
is as it was. -/
theorem init_registers_oci8_first (k : OCIHeader) (n : Native) (w0 : World) :
    (∃ rest, (init k n w0).1.trace = w0.trace ++
        Event.sqlRegister (lit "oci8") OCI8Driver :: rest ∧
      ∀ e ∈ rest, e.isRegister = false) ∧
    (initEvents k n w0).filter Event.isRegister =
      [Event.sqlRegister (lit "oci8") OCI8Driver] ∧
    (w0.registered (lit "oci8") = false →
      (∃ rest, (init k n w0).1.trace = w0.trace ++
        Event.sqlRegister (lit "oci8") OCI8Driver ::
        Event.envCreate k.OCI_DEFAULT (envStatus k n) (envHandle k n) :: rest) ∧
      (init k n w0).1.drivers = w0.drivers ++ [(lit "oci8", Registered.oci8 OCI8Driver)]) ∧
    (w0.registered (lit "oci8") = true →
      (init k n w0).2 = some (lit "sql: Register called twice for driver oci8") ∧
      initEvents k n w0 = [Event.sqlRegister (lit "oci8") OCI8Driver] ∧
      (init k n w0).1.drivers = w0.drivers) := by
  have hmsg : lit "sql: Register called twice for driver " ++ lit "oci8" =
      lit "sql: Register called twice for driver oci8" := by decide
  by_cases hreg : w0.registered (lit "oci8") = true
  · have e := init_of_taken k n w0 hreg
    have ev := initEvents_of_eq k n w0 _ _ _ e rfl
    refine ⟨⟨[], by simp [e], by simp⟩, by rw [ev]; simp [List.filter, Event.isRegister],
      fun h => by rw [hreg] at h; exact absurd h (by decide),
      fun _ => ⟨by rw [e, hmsg], ev, by simp [e]⟩⟩
  · have hfree : w0.registered (lit "oci8") = false := by simpa using hreg
    have main : ∃ rest, (init k n w0).1.trace = w0.trace ++
          Event.sqlRegister (lit "oci8") OCI8Driver ::
          Event.envCreate k.OCI_DEFAULT (envStatus k n) (envHandle k n) :: rest ∧
        (∀ e ∈ rest, e.isRegister = false) ∧
        (init k n w0).1.drivers =
          w0.drivers ++ [(lit "oci8", Registered.oci8 OCI8Driver)] := by
      simp only [init, sqlRegister_free _ _ _ hfree, envStatus, envHandle]
      split
      · split_ifs <;>
          simp [printOut, World.emit, cString, cStringN, cGoStringN, malloc, ociErrorGet,
            Event.isRegister]
      · simp [printOut, World.emit, cString, cStringN, cGoStringN, malloc, ociErrorGet,
          Event.isRegister, free]
    obtain ⟨rest, ht, hrest, hd⟩ := main
    refine ⟨⟨_, ht, ?_⟩, ?_, fun _ => ⟨⟨rest, ht⟩, hd⟩, fun h => absurd h hreg⟩
    · intro e he
      rcases List.mem_cons.mp he with rfl | he
      · rfl
      · exact hrest e he
    · have hf : rest.filter Event.isRegister = [] :=
        List.filter_eq_nil_iff.mpr fun e he => by simp [hrest e he]
      simp [initEvents, ht, List.filter, Event.isRegister, hf]

/-- C7, witness: the amended statement in a program where `oci8` is free, and in one
where it is taken. -/
theorem init_registers_oci8_first_witness :
    (init oracleHeader (sampleNative 0 7) World.initial).1.drivers =
      [(lit "oci8", Registered.oci8 OCI8Driver)] ∧
    (init oracleHeader (sampleNative 0 7) World.taken).2 =
      some (lit "sql: Register called twice for driver oci8") :=
  ⟨((init_registers_oci8_first oracleHeader (sampleNative 0 7) World.initial).2.2.1
      (by decide)).2,
    ((init_registers_oci8_first oracleHeader (sampleNative 0 7) World.taken).2.2.2
      (by decide)).1⟩

/-- C8: in the `OCI_ERROR` branch of `init` the buffer `errbuf` is one allocation of 1024
bytes; the native error-text lookup is given that buffer and the capacity 1024, and the
buffer still has 1024 bytes after it; the message is then read as 512 bytes from the start
of the buffer, which is a live block of 1024 bytes, so the read stays inside it; the
message printed after `ERROR MESSAGE: ` is the first 512 bytes of the buffer and has
length 512; and no effect of the branch reads or fills memory outside a live block. Here `hreg` says that
`sql.Register` returns, so that the environment-create call is made: no driver is
registered under `oci8` before `init`. -/
theorem init_error_text_bounded (k : OCIHeader) (n : Native) (w0 : World)
    (hreg : w0.registered (lit "oci8") = false)
    (hk : k.Distinct) (h : envStatus k n = k.OCI_ERROR) :
    (initEvents k n w0).drop 9 =
      [Event.malloc 1024 (w0.heap.length + 3),
        Event.errorGet (envHandle k n) 1 (w0.heap.length + 3) 1024 k.OCI_HTYPE_ENV
          (n.OCIErrorGet (envHandle k n) 1 k.OCI_ERROR 1024 k.OCI_HTYPE_ENV).1,
        Event.stdout ((sprint
          (n.OCIErrorGet (envHandle k n) 1 k.OCI_ERROR 1024 k.OCI_HTYPE_ENV).1) ++ lit "\n"),
        Event.cRead (w0.heap.length + 3) 512,
        Event.stdout (lit "ERROR MESSAGE: " ++ (errbufAfterLookup k n w0).take 512 ++
          lit "\n")] ∧
    blockAt (init k n w0).1.heap (w0.heap.length + 3) =
      some { bytes := errbufAfterLookup k n w0, freed := false } ∧
    (errbufAfterLookup k n w0).length = 1024 ∧
    ((errbufAfterLookup k n w0).take 512).length = 512 ∧
    readInBounds (init k n w0).1.heap (w0.heap.length + 3) 512 ∧
    replay [] (initEvents k n w0) =
      some [(w0.heap.length + 1, 5), (w0.heap.length + 2, 5), (w0.heap.length + 3, 1024)] := by
  have e := init_of_error k n w0 hk hreg h
  have hlen : (errbufAfterLookup k n w0).length = 1024 := by
    simp [errbufAfterLookup, overwrite_length]
  have hblock : blockAt (init k n w0).1.heap (w0.heap.length + 3) =
      some { bytes := errbufAfterLookup k n w0, freed := false } := by
    have := blockAt_fresh (w0.heap ++ [{ bytes := lit "test" ++ [0], freed := false },
      { bytes := lit "test" ++ [0], freed := false }])
      { bytes := errbufAfterLookup k n w0, freed := false }
    simpa [e] using this
  refine ⟨?_, hblock, hlen, by simp [hlen], ⟨_, hblock, rfl, by simp [hlen]⟩, ?_⟩
  · rw [initEvents_of_eq k n w0 _ _ _ e rfl]
    rfl
  · rw [initEvents_of_eq k n w0 _ _ _ e rfl]
    simp [replay]

/-- C8, witness: the `OCI_ERROR` branch at the constants of `oci.h`; the buffer is the
third block of the C heap. -/
theorem init_error_text_bounded_witness :
    (errbufAfterLookup oracleHeader (sampleNative (-1) 0) World.initial).length = 1024 ∧
    readInBounds (init oracleHeader (sampleNative (-1) 0) World.initial).1.heap 3 512 ∧
    replay [] (initEvents oracleHeader (sampleNative (-1) 0) World.initial) =
      some [(1, 5), (2, 5), (3, 1024)] :=
  have t := init_error_text_bounded oracleHeader (sampleNative (-1) 0) World.initial
    (by decide) (by decide) (by decide)
  ⟨t.2.2.1, t.2.2.2.2.1, t.2.2.2.2.2⟩

/-- C9: `init` panics exactly when the status of the native environment-create call is not
`OCI_SUCCESS`; for a status that is neither `OCI_SUCCESS` nor `OCI_ERROR` the panic value is
`OCIEnvCreate error: ` followed by the decimal rendering of that status; for `OCI_ERROR` it
is `OCIEnvCreate error: ` followed by the value the native error-text lookup left in
`result`. Here `hreg` says that
`sql.Register` returns, so that the environment-create call is made: no driver is
registered under `oci8` before `init`. -/
theorem init_panics_iff_not_success (k : OCIHeader) (n : Native) (w0 : World)
    (hreg : w0.registered (lit "oci8") = false) :
    ((init k n w0).2 ≠ none ↔ envStatus k n ≠ k.OCI_SUCCESS) ∧
    (envStatus k n ≠ k.OCI_SUCCESS → envStatus k n ≠ k.OCI_ERROR →
      (init k n w0).2 = some (lit "OCIEnvCreate error: " ++ sprint (envStatus k n))) ∧
    (k.Distinct → envStatus k n = k.OCI_ERROR →
      (init k n w0).2 = some (lit "OCIEnvCreate error: " ++
        sprint (n.OCIErrorGet (envHandle k n) 1 k.OCI_ERROR 1024 k.OCI_HTYPE_ENV).2.1)) := by
  refine ⟨?_, fun hs he => by rw [init_of_other k n w0 hreg hs he],
    fun hk he => by rw [init_of_error k n w0 hk hreg he]⟩
  by_cases hs : envStatus k n = k.OCI_SUCCESS
  · simp [init_of_success k n w0 hreg hs, hs]
  · unfold envStatus at hs
    simp [init, sqlRegister_free _ _ _ hreg, envStatus, hs]

/-- C9, witness: at the constants of `oci.h`, the status `OCI_INVALID_HANDLE` (-2) gives
the panic value `OCIEnvCreate error: -2`, and the status `OCI_ERROR` (-1), with a native
error-text lookup that leaves 1017 in `result`, gives `OCIEnvCreate error: 1017`. -/
theorem init_panics_iff_not_success_witness :
    (init oracleHeader (sampleNative (-2) 0) World.initial).2 =
      some (lit "OCIEnvCreate error: -2") ∧
    (init oracleHeader (sampleNative (-1) 0) World.initial).2 =
      some (lit "OCIEnvCreate error: 1017") :=
  ⟨(init_panics_iff_not_success oracleHeader (sampleNative (-2) 0) World.initial
      (by decide)).2.1 (by decide) (by decide),
    (init_panics_iff_not_success oracleHeader (sampleNative (-1) 0) World.initial
      (by decide)).2.2 (by decide) (by decide)⟩

/-- C10: when the native environment-create call returns `OCI_SUCCESS`, the effects of
`init` are, in this order: the registration, the environment create, one allocation (the
nine bytes of the C string `AL32UTF8`), the character-set lookup on that handle and that
string, the free of that string, and the free of that handle with the handle type
environment.  So one environment handle is created and the same one freed, one block is
allocated and the same one freed, both frees come after the lookup, every effect touches
live memory only, and no block stays live. Here `hreg` says that
`sql.Register` returns, so that the environment-create call is made: no driver is
registered under `oci8` before `init`. -/
theorem init_success_releases_all (k : OCIHeader) (n : Native) (w0 : World)
    (hreg : w0.registered (lit "oci8") = false)
    (h : envStatus k n = k.OCI_SUCCESS) :
    initEvents k n w0 =
      [Event.sqlRegister (lit "oci8") OCI8Driver,
        Event.envCreate k.OCI_DEFAULT k.OCI_SUCCESS (envHandle k n),
        Event.malloc 9 (w0.heap.length + 1),
        Event.charSetNameToId (envHandle k n) (w0.heap.length + 1) (lit "AL32UTF8")
          (n.OCINlsCharSetNameToId (envHandle k n) (lit "AL32UTF8")),
        Event.free (w0.heap.length + 1),
        Event.handleFree (envHandle k n) k.OCI_HTYPE_ENV] ∧
    (initEvents k n w0).filter Event.isEnvCreate =
      [Event.envCreate k.OCI_DEFAULT k.OCI_SUCCESS (envHandle k n)] ∧
    (initEvents k n w0).filter Event.isHandleFree =
      [Event.handleFree (envHandle k n) k.OCI_HTYPE_ENV] ∧
    (initEvents k n w0).filter Event.isMalloc = [Event.malloc 9 (w0.heap.length + 1)] ∧
    (initEvents k n w0).filter Event.isFree = [Event.free (w0.heap.length + 1)] ∧
    (init k n w0).1.heap = w0.heap ++ [{ bytes := lit "AL32UTF8" ++ [0], freed := true }] ∧
    replay [] (initEvents k n w0) = some [] := by
  have e := init_of_success k n w0 hreg h
  have ev := initEvents_of_eq k n w0 _ _ _ e rfl
  refine ⟨ev, ?_, ?_, ?_, ?_, by simp [e], ?_⟩ <;> rw [ev] <;>
    simp [List.filter, Event.isEnvCreate, Event.isHandleFree, Event.isMalloc, Event.isFree,
      replay]

/-- C10, witness: the successful start-up at the constants of `oci.h`. -/
theorem init_success_releases_all_witness :
    initEvents oracleHeader (sampleNative 0 7) World.initial =
      [Event.sqlRegister (lit "oci8") OCI8Driver, Event.envCreate 0 0 7, Event.malloc 9 1,
        Event.charSetNameToId 7 1 (lit "AL32UTF8") 873, Event.free 1, Event.handleFree 7 1] ∧
    replay [] (initEvents oracleHeader (sampleNative 0 7) World.initial) = some [] :=
  have t := init_success_releases_all oracleHeader (sampleNative 0 7) World.initial
    (by decide) (by decide)
  ⟨t.1, t.2.2.2.2.2.2⟩

/-! ## The claims on the package-level variables -/

/-- C4: `ErrOCISuccessWithInfo` carries exactly the message `OCI_SUCCESS_WITH_INFO`,
`ErrNoRowid` carries exactly the message `result has no rowid`, the two messages differ,
the two sentinels are different values, neither compares equal to the other, and each
compares equal to itself. -/
theorem sentinels_distinguished (next : Nat) :
    (ErrOCISuccessWithInfo next).Error = lit "OCI_SUCCESS_WITH_INFO" ∧
    (ErrNoRowid next).Error = lit "result has no rowid" ∧
    (ErrOCISuccessWithInfo next).Error ≠ (ErrNoRowid next).Error ∧
    ErrOCISuccessWithInfo next ≠ ErrNoRowid next ∧
    (ErrOCISuccessWithInfo next).same (ErrNoRowid next) = false ∧
    (ErrNoRowid next).same (ErrOCISuccessWithInfo next) = false ∧
    (ErrOCISuccessWithInfo next).same (ErrOCISuccessWithInfo next) = true ∧
    (ErrNoRowid next).same (ErrNoRowid next) = true := by
  have hm : lit "OCI_SUCCESS_WITH_INFO" ≠ lit "result has no rowid" := by decide
  refine ⟨rfl, rfl, hm, ?_, ?_, ?_, ?_, ?_⟩ <;>
    simp [ErrOCISuccessWithInfo, ErrNoRowid, errorVars, errorsNew, GoError.same]

/-- C6: the logger of the package-level `OCI8Driver` is built by `log.New` over the discard
sink with an empty prefix and zero flags, and logging any message through it leaves the
world, and so everything observable, unchanged. -/
theorem default_logger_discards (stamp s : Bytes) (w : World) :
    OCI8Driver.Logger = logNew Writer.discard (lit "") 0 ∧
    OCI8Driver.Logger.out = Writer.discard ∧
    OCI8Driver.Logger.pfx = [] ∧
    OCI8Driver.Logger.flag = 0 ∧
    OCI8Driver.Logger.Output stamp s w = w := by
  refine ⟨rfl, rfl, rfl, rfl, rfl⟩

/-! ## The claim on `phre` -/

/-- C1: `regexp.MustCompile` accepts the pattern of `phre` (it does not panic), and for
every text `s` the successive non-overlapping matches of `phre` in `s` are, in order,
exactly the spans `[i, i + 1)` of the positions `i` at which `s` has the byte `?`
(wherever it stands: in a quoted literal, in a comment, next to a multi-byte character).
So every match is exactly one `?`, every `?` is matched, nothing else is matched, and the
number of matches, the parameter count a positional statement expects, equals the number
of `?` in `s`. -/
theorem phre_matches_exactly_question_marks (s : Bytes) :
    ∃ re, phre = some re ∧
      FindAllStringIndex re s =
        ((List.range s.length).filter fun i => s.getD i 0 = 63).map (fun i => (i, i + 1)) ∧
      (∀ m ∈ FindAllStringIndex re s, m.2 = m.1 + 1 ∧ m.1 < s.length ∧ s.getD m.1 0 = 63) ∧
      (∀ i, i < s.length → s.getD i 0 = 63 → (i, i + 1) ∈ FindAllStringIndex re s) ∧
      (FindAllStringIndex re s).length = s.count 63 := by
  have h : FindAllStringIndex (Regexp.literal 63) s = marks s 0 := by
    rw [FindAllStringIndex, loop_spec s _ 0 _ (Nat.zero_le _) (by omega)]
    rfl
  have hf : FindAllStringIndex (Regexp.literal 63) s =
      ((List.range s.length).filter fun i => s.getD i 0 = 63).map (fun i => (i, i + 1)) := by
    rw [h, marks_eq_filter]; simp
  refine ⟨_, phre_eq, hf, ?_, ?_, ?_⟩
  · intro m hm
    rw [hf] at hm
    simp only [List.mem_map, List.mem_filter, List.mem_range, decide_eq_true_eq] at hm
    obtain ⟨i, ⟨hi, hq⟩, rfl⟩ := hm
    exact ⟨rfl, hi, hq⟩
  · intro i hi hq
    rw [hf]
    simp only [List.mem_map, List.mem_filter, List.mem_range, decide_eq_true_eq]
    exact ⟨i, ⟨hi, hq⟩, rfl⟩
  · rw [h, marks_length]

end OCI8
